import Mathlib

/-!
Verification of the `eventer` library: a registry mapping promoted events to
records of before-hooks, after-hooks and conditions, a dispatch wrapper
(`calls_subs`) that sequences condition checks, before-hooks, the body and
after-hooks, three registration operations usable as decorators or direct
calls, and the `voidargs` signature adapter.

Embedding choices:
- A Python callable is modelled as `Fn α ε ρ`: an identity (`fid`, standing
  for the object identity `id(...)` used by the source), a `name`
  (`__name__`), and a behaviour `run : α → Except ε ρ` where `α` is the whole
  argument list (positional and keyword arguments together), `ε` a raised
  exception and `ρ` the returned value.
- Conditions return a Python value `PyVal`; the dispatcher tests its
  truthiness, mirroring `if not sub(*args, **kwargs)`.
- Dispatch returns the trace of calls it made, as `(fid, args)` pairs in
  order, together with `Except ε (Option ρ)`: `.ok none` is a vetoed call
  returning `None`, `.ok (some r)` a completed call returning the body's
  result, `.error e` an exception propagating to the caller.
- The registry keys records by handle; handles are minted from a counter
  (`nextId`), modelling the freshness of the wrapper object identities the
  source uses as keys.
-/

namespace Eventer

/-- A Python value, as far as condition truthiness is concerned:
`None`, a boolean, an integer or a string. -/
inductive PyVal where
  | vnone
  | vbool (b : Bool)
  | vint (n : Int)
  | vstr (s : String)
deriving DecidableEq, Repr

/-- Python truthiness: `None` is falsy, booleans are themselves, numbers are
truthy iff nonzero, strings iff nonempty. -/
def truthy : PyVal → Bool
  | .vnone => false
  | .vbool b => b
  | .vint n => n != 0
  | .vstr s => s != ""

/-- A callable: object identity `fid` (the source's `id(...)`), `__name__`,
and its behaviour on an argument list, which may return a value or raise. -/
structure Fn (α ε ρ : Type) where
  fid : Nat
  name : String
  run : α → Except ε ρ

/-- One registry record: the `(before, after, conditions)` triple stored in
`_events` for a promoted event. -/
structure EventRecord (α ε σ : Type) where
  before : List (Fn α ε σ)
  after : List (Fn α ε σ)
  conditions : List (Fn α ε PyVal)

/-- The `([], [], [])` record inserted at promotion time. -/
def EventRecord.empty {α ε σ : Type} : EventRecord α ε σ := ⟨[], [], []⟩

/-- The global `_events` dictionary plus the counter minting fresh handles
(the source relies on the freshness of `id(calls_subs)`). -/
structure Registry (α ε σ : Type) where
  nextId : Nat
  events : List (Nat × EventRecord α ε σ)

/-- Association-list lookup for the events table. -/
def lookupEvents {α ε σ : Type} : List (Nat × EventRecord α ε σ) → Nat → Option (EventRecord α ε σ)
  | [], _ => none
  | p :: rest, h => if p.1 = h then some p.2 else lookupEvents rest h

/-- Membership test `h in _events` and lookup `_events[h]`. -/
def Registry.lookup {α ε σ : Type} (reg : Registry α ε σ) (h : Nat) : Option (EventRecord α ε σ) :=
  lookupEvents reg.events h

/-- In-place mutation of the record stored under key `h`
(the source's `_events[id(ev)][i].append(f)`). -/
def Registry.update {α ε σ : Type} (reg : Registry α ε σ) (h : Nat)
    (g : EventRecord α ε σ → EventRecord α ε σ) : Registry α ε σ :=
  ⟨reg.nextId, reg.events.map (fun p => if p.1 = h then (p.1, g p.2) else p)⟩

/-- Every key in the table was minted by the counter. -/
def WF {α ε σ : Type} (reg : Registry α ε σ) : Prop :=
  ∀ p ∈ reg.events, p.1 < reg.nextId

/-- The wrapper returned by `@event`: its own identity (the registry key),
the `__name__` copied from the body by `@wraps`, and the wrapped body. -/
structure EventWrapper (α ε ρ : Type) where
  handle : Nat
  name : String
  body : Fn α ε ρ

/-- Whatever object is passed as the `ev` argument of a registration
operation: all the source uses of it are `id(ev)` and `ev.__name__`. -/
structure Target where
  tid : Nat
  name : String

/-- An event wrapper seen as a registration target. -/
def EventWrapper.toTarget {α ε ρ : Type} (w : EventWrapper α ε ρ) : Target :=
  ⟨w.handle, w.name⟩

/-- Outcome of the condition loop. -/
inductive CondRes (ε : Type) where
  | passed
  | vetoed
  | raised (e : ε)
deriving Repr

/-- The loop `for sub in conditions: if not sub(*args, **kwargs): return` —
evaluate each condition in order on the same arguments; stop at the first
falsy result (veto) or the first raised exception. Returns the trace of
condition calls made. -/
def runConds {α ε : Type} (conds : List (Fn α ε PyVal)) (args : α) :
    List (Nat × α) × CondRes ε :=
  match conds with
  | [] => ([], .passed)
  | c :: rest =>
    match c.run args with
    | .error e => ([(c.fid, args)], .raised e)
    | .ok v =>
      if truthy v then
        let p := runConds rest args
        ((c.fid, args) :: p.1, p.2)
      else
        ([(c.fid, args)], .vetoed)

/-- The loop `for sub in subs: sub(*args, **kwargs)` — call each subscriber in order
on the same arguments, discarding return values; the first raised exception
aborts the loop. Returns the trace of subscriber calls made. -/
def runSubs {α ε σ : Type} (subs : List (Fn α ε σ)) (args : α) :
    List (Nat × α) × Option ε :=
  match subs with
  | [] => ([], none)
  | s :: rest =>
    match s.run args with
    | .error e => ([(s.fid, args)], some e)
    | .ok _ =>
      let p := runSubs rest args
      ((s.fid, args) :: p.1, p.2)

/-- The dispatch algorithm of the wrapper `calls_subs`, run on the record
looked up for its handle: conditions (any falsy result returns `None`
immediately), then before-hooks, then the body, then after-hooks; the body's
result is returned; any exception propagates and aborts the rest. The first
component is the trace of calls made, in order. -/
def calls_subs {α ε σ ρ : Type} (rec : EventRecord α ε σ) (f : Fn α ε ρ) (args : α) :
    List (Nat × α) × Except ε (Option ρ) :=
  match runConds rec.conditions args with
  | (t, CondRes.raised e) => (t, Except.error e)
  | (t, CondRes.vetoed) => (t, Except.ok none)
  | (t, CondRes.passed) =>
    match runSubs rec.before args with
    | (tb, some e) => (t ++ tb, Except.error e)
    | (tb, none) =>
      match f.run args with
      | Except.error e => (t ++ tb ++ [(f.fid, args)], Except.error e)
      | Except.ok r =>
        match runSubs rec.after args with
        | (ta, some e) => (t ++ tb ++ [(f.fid, args)] ++ ta, Except.error e)
        | (ta, none) => (t ++ tb ++ [(f.fid, args)] ++ ta, Except.ok (some r))

/-- Promotion `@event`: mint a fresh handle for the new wrapper, insert the empty
record under it, and return the wrapper (carrying the body's name via
`@wraps` and closing over the body). -/
def event {α ε σ ρ : Type} (f : Fn α ε ρ) (reg : Registry α ε σ) :
    EventWrapper α ε ρ × Registry α ε σ :=
  (⟨reg.nextId, f.name, f⟩, ⟨reg.nextId + 1, (reg.nextId, EventRecord.empty) :: reg.events⟩)

/-- Calling a promoted event: look up its record (it must exist) and run the
dispatch algorithm on it with the wrapped body. -/
def invoke {α ε σ ρ : Type} (reg : Registry α ε σ) (w : EventWrapper α ε ρ) (args : α) :
    Option (List (Nat × α) × Except ε (Option ρ)) :=
  (reg.lookup w.handle).map (fun rec => calls_subs rec w.body args)

/-- The exception raised by the registration operations. -/
inductive RegErr where
  | eventNotRegistered (msg : String)
deriving DecidableEq, Repr

/-- The message of `EventNotRegistered`, carrying the offending callable's
name. -/
def notRegisteredMsg (name : String) : String :=
  "Function `" ++ name ++ "` is not registered as an event. This can be resolved by adding the `@event` decorator to the function."

/-- The inner `decorator` of `run_before`: raise `EventNotRegistered` when
`id(ev)` has no registry entry, otherwise append `f` to the before-list of
`ev`'s record and return `f`. -/
def run_before_decorator {α ε σ : Type} (ev : Target) (f : Fn α ε σ) (reg : Registry α ε σ) :
    Except RegErr (Fn α ε σ × Registry α ε σ) :=
  match reg.lookup ev.tid with
  | none => Except.error (RegErr.eventNotRegistered (notRegisteredMsg ev.name))
  | some _ => Except.ok (f, reg.update ev.tid (fun r => ⟨r.before ++ [f], r.after, r.conditions⟩))

/-- Registration `run_before(ev, fn=None)`: with `fn` absent, just return the decorator;
with `fn` present, apply the decorator to it at once (which may raise) and
still return the decorator. -/
def run_before {α ε σ : Type} (ev : Target) (fn : Option (Fn α ε σ)) (reg : Registry α ε σ) :
    Except RegErr ((Fn α ε σ → Registry α ε σ → Except RegErr (Fn α ε σ × Registry α ε σ)) × Registry α ε σ) :=
  match fn with
  | none => Except.ok (run_before_decorator ev, reg)
  | some f =>
    match run_before_decorator ev f reg with
    | Except.error e => Except.error e
    | Except.ok (_, reg2) => Except.ok (run_before_decorator ev, reg2)

/-- The inner `decorator` of `run_after`: like `run_before`'s but appending
to the after-list. -/
def run_after_decorator {α ε σ : Type} (ev : Target) (f : Fn α ε σ) (reg : Registry α ε σ) :
    Except RegErr (Fn α ε σ × Registry α ε σ) :=
  match reg.lookup ev.tid with
  | none => Except.error (RegErr.eventNotRegistered (notRegisteredMsg ev.name))
  | some _ => Except.ok (f, reg.update ev.tid (fun r => ⟨r.before, r.after ++ [f], r.conditions⟩))

/-- Registration `run_after(ev, fn=None)`, structurally identical to `run_before`. -/
def run_after {α ε σ : Type} (ev : Target) (fn : Option (Fn α ε σ)) (reg : Registry α ε σ) :
    Except RegErr ((Fn α ε σ → Registry α ε σ → Except RegErr (Fn α ε σ × Registry α ε σ)) × Registry α ε σ) :=
  match fn with
  | none => Except.ok (run_after_decorator ev, reg)
  | some f =>
    match run_after_decorator ev f reg with
    | Except.error e => Except.error e
    | Except.ok (_, reg2) => Except.ok (run_after_decorator ev, reg2)

/-- The inner `decorator` of `condition_for`: like the others but appending
to the condition-list. -/
def condition_for_decorator {α ε σ : Type} (ev : Target) (f : Fn α ε PyVal) (reg : Registry α ε σ) :
    Except RegErr (Fn α ε PyVal × Registry α ε σ) :=
  match reg.lookup ev.tid with
  | none => Except.error (RegErr.eventNotRegistered (notRegisteredMsg ev.name))
  | some _ => Except.ok (f, reg.update ev.tid (fun r => ⟨r.before, r.after, r.conditions ++ [f]⟩))

/-- Registration `condition_for(ev, fn=None)`, structurally identical to `run_before`. -/
def condition_for {α ε σ : Type} (ev : Target) (fn : Option (Fn α ε PyVal)) (reg : Registry α ε σ) :
    Except RegErr ((Fn α ε PyVal → Registry α ε σ → Except RegErr (Fn α ε PyVal × Registry α ε σ)) × Registry α ε σ) :=
  match fn with
  | none => Except.ok (condition_for_decorator ev, reg)
  | some f =>
    match condition_for_decorator ev f reg with
    | Except.error e => Except.error e
    | Except.ok (_, reg2) => Except.ok (condition_for_decorator ev, reg2)

/-- Adapter `voidargs`: wrap a zero-argument callable into one that accepts any
argument list, ignores it, calls `f()` and returns `None` (discarding `f`'s
return value; an exception from `f` propagates). `vid` is the fresh object
identity of the new wrapper; `@wraps` copies the name. -/
def voidargs {ε σ : Type} (α : Type) (vid : Nat) (f : Fn Unit ε σ) : Fn α ε PyVal :=
  ⟨vid, f.name, fun _ =>
    match f.run () with
    | Except.error e => Except.error e
    | Except.ok _ => Except.ok PyVal.vnone⟩

/-- The trace entries produced by calling each function of `l` in order on
`args`. -/
def traceOf {α ε ρ : Type} (args : α) (l : List (Fn α ε ρ)) : List (Nat × α) :=
  l.map (fun s => (s.fid, args))

/-- Every condition of the list returns normally with a truthy value. -/
def passes {α ε : Type} (conds : List (Fn α ε PyVal)) (args : α) : Prop :=
  ∀ c ∈ conds, ∃ v, c.run args = Except.ok v ∧ truthy v = true

/-- Every subscriber of the list returns normally (with any value). -/
def oks {α ε σ : Type} (subs : List (Fn α ε σ)) (args : α) : Prop :=
  ∀ s ∈ subs, ∃ v, s.run args = Except.ok v

section Lemmas

variable {α ε σ ρ : Type}

lemma traceOf_append (args : α) (l₁ l₂ : List (Fn α ε ρ)) :
    traceOf args (l₁ ++ l₂) = traceOf args l₁ ++ traceOf args l₂ := by
  simp [traceOf]

/-- When every condition passes, the loop visits all of them and the event
is not vetoed. -/
lemma runConds_pass {conds : List (Fn α ε PyVal)} {args : α}
    (h : passes conds args) :
    runConds conds args = (traceOf args conds, CondRes.passed) := by
  induction conds with
  | nil => simp [runConds, traceOf]
  | cons c rest ih =>
    obtain ⟨v, hv, htv⟩ := h c (List.mem_cons_self c rest)
    have hrest : passes rest args := fun x hx => h x (List.mem_cons_of_mem c hx)
    simp [runConds, hv, htv, ih hrest, traceOf]

/-- When an initial segment passes and the next condition returns a falsy
value, the loop visits exactly that segment plus the falsy condition and
vetoes. -/
lemma runConds_veto_split {conds l₁ l₂ : List (Fn α ε PyVal)} {c : Fn α ε PyVal}
    {args : α} {v : PyVal} (hsplit : conds = l₁ ++ c :: l₂)
    (hpre : passes l₁ args) (hc : c.run args = Except.ok v) (hv : truthy v = false) :
    runConds conds args = (traceOf args (l₁ ++ [c]), CondRes.vetoed) := by
  subst hsplit
  induction l₁ with
  | nil => simp [runConds, hc, hv, traceOf]
  | cons x rest ih =>
    obtain ⟨w, hw, htw⟩ := hpre x (List.mem_cons_self x rest)
    have hrest : passes rest args := fun y hy => hpre y (List.mem_cons_of_mem x hy)
    simp [runConds, hw, htw, ih hrest, traceOf]

/-- When an initial segment passes and the next condition raises, the loop
visits exactly that segment plus the raising condition and the exception
propagates. -/
lemma runConds_raise_split {conds l₁ l₂ : List (Fn α ε PyVal)} {c : Fn α ε PyVal}
    {args : α} {e : ε} (hsplit : conds = l₁ ++ c :: l₂)
    (hpre : passes l₁ args) (hc : c.run args = Except.error e) :
    runConds conds args = (traceOf args (l₁ ++ [c]), CondRes.raised e) := by
  subst hsplit
  induction l₁ with
  | nil => simp [runConds, hc, traceOf]
  | cons x rest ih =>
    obtain ⟨w, hw, htw⟩ := hpre x (List.mem_cons_self x rest)
    have hrest : passes rest args := fun y hy => hpre y (List.mem_cons_of_mem x hy)
    simp [runConds, hw, htw, ih hrest, traceOf]

/-- When every condition returns a boolean and at least one returns `False`,
the list splits at the first `False`: everything strictly before it returned
`True`, and the loop stops there with a veto. -/
lemma runConds_first_false {conds : List (Fn α ε PyVal)} {args : α}
    (hb : ∀ c ∈ conds, ∃ b, c.run args = Except.ok (PyVal.vbool b))
    (hex : ∃ c ∈ conds, c.run args = Except.ok (PyVal.vbool false)) :
    ∃ l₁ c l₂, conds = l₁ ++ c :: l₂ ∧
      (∀ x ∈ l₁, x.run args = Except.ok (PyVal.vbool true)) ∧
      c.run args = Except.ok (PyVal.vbool false) ∧
      runConds conds args = (traceOf args (l₁ ++ [c]), CondRes.vetoed) := by
  induction conds with
  | nil => simp at hex
  | cons c rest ih =>
    obtain ⟨b, hbc⟩ := hb c (List.mem_cons_self c rest)
    cases b with
    | false =>
      refine ⟨[], c, rest, by simp, by simp, hbc, ?_⟩
      simp [runConds, hbc, truthy, traceOf]
    | true =>
      have hbrest : ∀ x ∈ rest, ∃ b, x.run args = Except.ok (PyVal.vbool b) :=
        fun x hx => hb x (List.mem_cons_of_mem c hx)
      have hexrest : ∃ x ∈ rest, x.run args = Except.ok (PyVal.vbool false) := by
        obtain ⟨x, hx, hxf⟩ := hex
        rcases List.mem_cons.mp hx with hx | hx
        · subst hx; rw [hbc] at hxf; simp at hxf
        · exact ⟨x, hx, hxf⟩
      obtain ⟨l₁, d, l₂, hsplit, hpre, hd, hrun⟩ := ih hbrest hexrest
      refine ⟨c :: l₁, d, l₂, by simp [hsplit], ?_, hd, ?_⟩
      · intro x hx
        rcases List.mem_cons.mp hx with hx | hx
        · subst hx; exact hbc
        · exact hpre x hx
      · have hp2 : passes (c :: l₁) args := by
          intro x hx
          rcases List.mem_cons.mp hx with hx | hx
          · subst hx; exact ⟨_, hbc, rfl⟩
          · exact ⟨_, hpre x hx, rfl⟩
        have heq : c :: rest = (c :: l₁) ++ d :: l₂ := by simp [hsplit]
        exact runConds_veto_split heq hp2 hd rfl

/-- When every condition before some falsy-or-beyond point merely returns
(whatever the value), and some condition of the list is falsy, the loop
vetoes: more precisely, if the list splits as `l₁ ++ c :: l₂` with every
member of `l₁` returning normally and `c` falsy, the loop vetoes. -/
lemma runConds_veto_exists {conds l₁ l₂ : List (Fn α ε PyVal)} {c : Fn α ε PyVal}
    {args : α} {v : PyVal} (hsplit : conds = l₁ ++ c :: l₂)
    (hpre : ∀ x ∈ l₁, ∃ w, x.run args = Except.ok w)
    (hc : c.run args = Except.ok v) (hv : truthy v = false) :
    ∃ t, runConds conds args = (t, CondRes.vetoed) := by
  subst hsplit
  induction l₁ with
  | nil => exact ⟨[(c.fid, args)], by simp [runConds, hc, hv]⟩
  | cons x rest ih =>
    obtain ⟨w, hw⟩ := hpre x (List.mem_cons_self x rest)
    have hrest : ∀ y ∈ rest, ∃ u, y.run args = Except.ok u :=
      fun y hy => hpre y (List.mem_cons_of_mem x hy)
    obtain ⟨t, ht⟩ := ih hrest
    cases htw : truthy w with
    | false => exact ⟨[(x.fid, args)], by simp [runConds, hw, htw]⟩
    | true => exact ⟨(x.fid, args) :: t, by simp [runConds, hw, htw, ht]⟩

/-- When every subscriber returns normally, the loop visits all of them and
raises nothing. -/
lemma runSubs_ok {subs : List (Fn α ε σ)} {args : α}
    (h : oks subs args) :
    runSubs subs args = (traceOf args subs, none) := by
  induction subs with
  | nil => simp [runSubs, traceOf]
  | cons s rest ih =>
    obtain ⟨v, hv⟩ := h s (List.mem_cons_self s rest)
    have hrest : oks rest args := fun x hx => h x (List.mem_cons_of_mem s hx)
    simp [runSubs, hv, ih hrest, traceOf]

/-- When an initial segment returns normally and the next subscriber raises,
the loop visits exactly that segment plus the raising subscriber and the
exception propagates. -/
lemma runSubs_raise_split {subs l₁ l₂ : List (Fn α ε σ)} {s : Fn α ε σ}
    {args : α} {e : ε} (hsplit : subs = l₁ ++ s :: l₂)
    (hpre : oks l₁ args) (hs : s.run args = Except.error e) :
    runSubs subs args = (traceOf args (l₁ ++ [s]), some e) := by
  subst hsplit
  induction l₁ with
  | nil => simp [runSubs, hs, traceOf]
  | cons x rest ih =>
    obtain ⟨w, hw⟩ := hpre x (List.mem_cons_self x rest)
    have hrest : oks rest args := fun y hy => hpre y (List.mem_cons_of_mem x hy)
    simp [runSubs, hw, ih hrest, traceOf]

/-- Successful dispatch: every condition passes, every before-hook returns,
the body returns `r`, every after-hook returns. The trace is conditions,
then before-hooks, then the body, then after-hooks, each in registration
order with the same arguments; the body's result is returned. -/
lemma calls_subs_success {rec : EventRecord α ε σ} {f : Fn α ε ρ} {args : α} {r : ρ}
    (hc : passes rec.conditions args) (hb : oks rec.before args)
    (hf : f.run args = Except.ok r) (ha : oks rec.after args) :
    calls_subs rec f args =
      (traceOf args rec.conditions ++ traceOf args rec.before ++ [(f.fid, args)] ++
        traceOf args rec.after, Except.ok (some r)) := by
  simp [calls_subs, runConds_pass hc, runSubs_ok hb, hf, runSubs_ok ha]

/-- Association-list update/lookup at the updated key. -/
lemma lookupEvents_map_self (l : List (Nat × EventRecord α ε σ)) (h : Nat)
    (g : EventRecord α ε σ → EventRecord α ε σ) :
    lookupEvents (l.map (fun p => if p.1 = h then (p.1, g p.2) else p)) h =
      (lookupEvents l h).map g := by
  induction l with
  | nil => simp [lookupEvents]
  | cons p rest ih =>
    by_cases hp : p.1 = h
    · simp [lookupEvents, hp]
    · simp [lookupEvents, hp, ih]

/-- Association-list update/lookup at a different key. -/
lemma lookupEvents_map_ne (l : List (Nat × EventRecord α ε σ)) {h h' : Nat}
    (g : EventRecord α ε σ → EventRecord α ε σ) (hne : h' ≠ h) :
    lookupEvents (l.map (fun p => if p.1 = h then (p.1, g p.2) else p)) h' =
      lookupEvents l h' := by
  induction l with
  | nil => simp [lookupEvents]
  | cons p rest ih =>
    by_cases hp : p.1 = h
    · have h3 : ¬ (h = h') := fun hh => hne hh.symm
      simp [lookupEvents, hp, h3, ih]
    · simp [lookupEvents, hp, ih]

lemma lookup_update_self (reg : Registry α ε σ) (h : Nat)
    (g : EventRecord α ε σ → EventRecord α ε σ) :
    (reg.update h g).lookup h = (reg.lookup h).map g :=
  lookupEvents_map_self reg.events h g

lemma lookup_update_ne (reg : Registry α ε σ) {h h' : Nat}
    (g : EventRecord α ε σ → EventRecord α ε σ) (hne : h' ≠ h) :
    (reg.update h g).lookup h' = reg.lookup h' :=
  lookupEvents_map_ne reg.events g hne

/-- Keys above every key of the table are absent. -/
lemma lookupEvents_none_of_lt (l : List (Nat × EventRecord α ε σ)) {n : Nat}
    (h : ∀ p ∈ l, p.1 < n) : lookupEvents l n = none := by
  induction l with
  | nil => simp [lookupEvents]
  | cons p rest ih =>
    have hp : p.1 < n := h p (List.mem_cons_self p rest)
    have hne : p.1 ≠ n := by omega
    simp [lookupEvents, hne, ih fun q hq => h q (List.mem_cons_of_mem p hq)]

/-- In a well-formed registry the next minted handle is fresh. -/
lemma lookup_nextId_eq_none {reg : Registry α ε σ} (hwf : WF reg) :
    reg.lookup reg.nextId = none :=
  lookupEvents_none_of_lt reg.events hwf

end Lemmas

/-! Concrete callables and registries used by the witness theorems. -/

/-- A condition returning `True` on every argument. -/
def cTrue : Fn Nat String PyVal := ⟨1, "ctrue", fun _ => Except.ok (PyVal.vbool true)⟩

/-- A condition returning `False` on every argument. -/
def cFalse : Fn Nat String PyVal := ⟨2, "cfalse", fun _ => Except.ok (PyVal.vbool false)⟩

/-- A condition that raises. -/
def cBoom : Fn Nat String PyVal := ⟨3, "cboom", fun _ => Except.error "boom-cond"⟩

/-- A subscriber returning `None`. -/
def sA : Fn Nat String PyVal := ⟨10, "sa", fun _ => Except.ok PyVal.vnone⟩

/-- A subscriber returning the (discarded) value `7`. -/
def sB : Fn Nat String PyVal := ⟨11, "sb", fun _ => Except.ok (PyVal.vint 7)⟩

/-- A subscriber that raises. -/
def sBoom : Fn Nat String PyVal := ⟨12, "sboom", fun _ => Except.error "boom-sub"⟩

/-- A body returning its argument plus one. -/
def bOk : Fn Nat String Nat := ⟨6, "bok", fun a => Except.ok (a + 1)⟩

/-- A body that raises. -/
def bBoom : Fn Nat String Nat := ⟨7, "bboom", fun _ => Except.error "boom-body"⟩

/-- A zero-argument callable returning `9`. -/
def zOk : Fn Unit String Nat := ⟨8, "zok", fun _ => Except.ok 9⟩

/-- The registry at interpreter start: no promoted event. -/
def reg0 : Registry Nat String PyVal := ⟨0, []⟩

/-- A registry with two promoted events, handles `0` and `1`, both with
empty records. -/
def regA : Registry Nat String PyVal := ⟨2, [(0, EventRecord.empty), (1, EventRecord.empty)]⟩

/-! The claims. -/

/-- C1: whenever the condition list splits as a prefix of conditions all
returning `True` followed by a condition returning `False` on the given
arguments, dispatch evaluates exactly those conditions in registration order
— so only up to the first one returning `False`, each receiving the
invocation's arguments — runs no before-hook, does not run the body, runs no
after-hook, and returns no value: `.ok none`, an absent result rather than
an error. -/
theorem C1_condition_veto {α ε σ ρ : Type} (rec : EventRecord α ε σ) (f : Fn α ε ρ) (args : α)
    (l₁ l₂ : List (Fn α ε PyVal)) (c : Fn α ε PyVal)
    (hsplit : rec.conditions = l₁ ++ c :: l₂)
    (hpre : ∀ x ∈ l₁, x.run args = Except.ok (PyVal.vbool true))
    (hc : c.run args = Except.ok (PyVal.vbool false)) :
    calls_subs rec f args = (traceOf args (l₁ ++ [c]), Except.ok none) := by
  have hp : passes l₁ args := fun x hx => ⟨_, hpre x hx, rfl⟩
  have hrun := runConds_veto_split hsplit hp hc rfl
  simp [calls_subs, hrun]

/-- Witness for C1: conditions `[cTrue, cFalse, cTrue]` — dispatch evaluates
the first two only and yields no value; the hooks `[sA]`/`[sA]`, the third
condition and the body `bOk` never run. -/
theorem C1_condition_veto_witness :
    calls_subs (EventRecord.mk [sA] [sA] [cTrue, cFalse, cTrue] : EventRecord Nat String PyVal)
        bOk 0 = ([(1, 0), (2, 0)], Except.ok none) :=
  C1_condition_veto (EventRecord.mk [sA] [sA] [cTrue, cFalse, cTrue]) bOk 0
    [cTrue] [cTrue] cFalse rfl
    (by
      intro x hx
      rcases List.mem_cons.mp hx with h | hx
      · subst h; rfl
      · simp at hx)
    rfl

/-- C2: if every registered condition returns `True` (vacuously when the
list is empty), every before-hook and after-hook returns normally and the
body returns `r`, then dispatch runs every before-subscriber in registration
order, then the body, then every after-subscriber in registration order —
each call receiving the identical argument list `args` the event was invoked
with — discards the subscriber return values, and returns the body's result
`r` to the caller. -/
theorem C2_dispatch_order_and_result {α ε σ ρ : Type} (rec : EventRecord α ε σ)
    (f : Fn α ε ρ) (args : α) (r : ρ)
    (hc : ∀ c ∈ rec.conditions, c.run args = Except.ok (PyVal.vbool true))
    (hb : oks rec.before args) (hf : f.run args = Except.ok r) (ha : oks rec.after args) :
    calls_subs rec f args =
      (traceOf args rec.conditions ++ traceOf args rec.before ++ [(f.fid, args)] ++
        traceOf args rec.after, Except.ok (some r)) :=
  calls_subs_success (fun c hcm => ⟨PyVal.vbool true, hc c hcm, rfl⟩) hb hf ha

/-- Witness for C2: one condition, before-hooks `[sA, sB]`, after-hook
`[sB]`, body `bOk` on argument `3`: the trace is the condition, then both
before-hooks in order, then the body, then the after-hook, all on argument
`3`, and the result is the body's `4`. -/
theorem C2_dispatch_order_and_result_witness :
    calls_subs (EventRecord.mk [sA, sB] [sB] [cTrue] : EventRecord Nat String PyVal) bOk 3 =
      ([(1, 3)] ++ [(10, 3), (11, 3)] ++ [(6, 3)] ++ [(11, 3)], Except.ok (some 4)) :=
  C2_dispatch_order_and_result (EventRecord.mk [sA, sB] [sB] [cTrue]) bOk 3 4
    (by
      intro c hc
      rcases List.mem_cons.mp hc with h | hc
      · subst h; rfl
      · simp at hc)
    (by
      intro s hs
      rcases List.mem_cons.mp hs with h | hs
      · exact ⟨PyVal.vnone, by subst h; rfl⟩
      rcases List.mem_cons.mp hs with h | hs
      · exact ⟨PyVal.vint 7, by subst h; rfl⟩
      · simp at hs)
    rfl
    (by
      intro s hs
      rcases List.mem_cons.mp hs with h | hs
      · exact ⟨PyVal.vint 7, by subst h; rfl⟩
      · simp at hs)

/-- C3: applying any of the three registration operations — decorator
application or direct call form — to a callable that was never promoted
(its identity has no Registry entry) raises `EventNotRegistered` carrying
the offending callable's name, and returns no updated registry: the
caller's Registry is left unchanged, no record is created and no record's
lists are modified. -/
theorem C3_unregistered_rejected {α ε σ : Type} (ev : Target) (reg : Registry α ε σ)
    (hne : reg.lookup ev.tid = none) (f g : Fn α ε σ) (c : Fn α ε PyVal) :
    run_before_decorator ev f reg
        = Except.error (RegErr.eventNotRegistered (notRegisteredMsg ev.name)) ∧
    run_after_decorator ev g reg
        = Except.error (RegErr.eventNotRegistered (notRegisteredMsg ev.name)) ∧
    condition_for_decorator ev c reg
        = Except.error (RegErr.eventNotRegistered (notRegisteredMsg ev.name)) ∧
    run_before ev (some f) reg
        = Except.error (RegErr.eventNotRegistered (notRegisteredMsg ev.name)) ∧
    run_after ev (some g) reg
        = Except.error (RegErr.eventNotRegistered (notRegisteredMsg ev.name)) ∧
    condition_for ev (some c) reg
        = Except.error (RegErr.eventNotRegistered (notRegisteredMsg ev.name)) := by
  refine ⟨?_, ?_, ?_, ?_, ?_, ?_⟩ <;>
    simp [run_before, run_after, condition_for, run_before_decorator,
      run_after_decorator, condition_for_decorator, hne]

/-- Witness for C3: the callable `bar` with identity `5` was never promoted
in `regA`; each registration operation rejects it with the error naming
`bar`. -/
theorem C3_unregistered_rejected_witness :
    run_before_decorator ⟨5, "bar"⟩ sA regA
        = Except.error (RegErr.eventNotRegistered (notRegisteredMsg "bar")) ∧
    run_after_decorator ⟨5, "bar"⟩ sB regA
        = Except.error (RegErr.eventNotRegistered (notRegisteredMsg "bar")) ∧
    condition_for_decorator ⟨5, "bar"⟩ cTrue regA
        = Except.error (RegErr.eventNotRegistered (notRegisteredMsg "bar")) ∧
    run_before ⟨5, "bar"⟩ (some sA) regA
        = Except.error (RegErr.eventNotRegistered (notRegisteredMsg "bar")) ∧
    run_after ⟨5, "bar"⟩ (some sB) regA
        = Except.error (RegErr.eventNotRegistered (notRegisteredMsg "bar")) ∧
    condition_for ⟨5, "bar"⟩ (some cTrue) regA
        = Except.error (RegErr.eventNotRegistered (notRegisteredMsg "bar")) :=
  C3_unregistered_rejected ⟨5, "bar"⟩ regA rfl sA sB cTrue

/-- C4: promoting a body inserts an empty record under a fresh handle —
fresh in that, for a well-formed registry, the handle had no record before —
returns a wrapper closing over the unmodified body, and modifies no existing
record; promoting the same body a second time yields a distinct handle with
its own independent empty record, the first record staying present and
empty. -/
theorem C4_promotion_fresh_empty {α ε σ ρ : Type} (f : Fn α ε ρ) (reg : Registry α ε σ)
    (hwf : WF reg) (w1 w2 : EventWrapper α ε ρ) (reg1 reg2 : Registry α ε σ)
    (h1 : event f reg = (w1, reg1)) (h2 : event f reg1 = (w2, reg2)) :
    w1.body = f ∧
    reg.lookup w1.handle = none ∧
    reg1.lookup w1.handle = some EventRecord.empty ∧
    (∀ h, h ≠ w1.handle → reg1.lookup h = reg.lookup h) ∧
    w2.body = f ∧
    w2.handle ≠ w1.handle ∧
    reg2.lookup w2.handle = some EventRecord.empty ∧
    reg2.lookup w1.handle = some EventRecord.empty := by
  simp only [event, Prod.mk.injEq] at h1 h2
  obtain ⟨hw1, hr1⟩ := h1
  obtain ⟨hw2, hr2⟩ := h2
  subst hw1 hr1 hw2 hr2
  refine ⟨rfl, lookup_nextId_eq_none hwf, ?_, ?_, rfl, ?_, ?_, ?_⟩
  · simp [Registry.lookup, lookupEvents]
  · intro h hne
    have h3 : ¬ (reg.nextId = h) := fun hh => hne hh.symm
    simp [Registry.lookup, lookupEvents, h3]
  · simp
  · simp [Registry.lookup, lookupEvents]
  · simp [Registry.lookup, lookupEvents]

/-- Witness for C4: promoting `bOk` twice starting from the empty registry
mints handles `0` then `1`, each with its own empty record; the second
promotion leaves the first record in place. -/
theorem C4_promotion_fresh_empty_witness :
    reg0.lookup 0 = none ∧
    (Registry.mk 1 [(0, EventRecord.empty)] : Registry Nat String PyVal).lookup 0
        = some EventRecord.empty ∧
    (1 : Nat) ≠ 0 ∧
    (Registry.mk 2 [(1, EventRecord.empty), (0, EventRecord.empty)] : Registry Nat String PyVal).lookup 1
        = some EventRecord.empty ∧
    (Registry.mk 2 [(1, EventRecord.empty), (0, EventRecord.empty)] : Registry Nat String PyVal).lookup 0
        = some EventRecord.empty := by
  have h := C4_promotion_fresh_empty bOk reg0 (by intro p hp; simp [reg0] at hp)
    (EventWrapper.mk 0 "bok" bOk) (EventWrapper.mk 1 "bok" bOk)
    (Registry.mk 1 [(0, EventRecord.empty)])
    (Registry.mk 2 [(1, EventRecord.empty), (0, EventRecord.empty)]) rfl rfl
  exact ⟨h.2.1, h.2.2.1, h.2.2.2.2.2.1, h.2.2.2.2.2.2.1, h.2.2.2.2.2.2.2⟩

/-- C7: on a promoted event, each registration operation used in decorator
form returns the registered subscriber/condition unchanged (appending it to
the corresponding list), and the direct call form `Register*(handle, fn)`
performs the registration immediately and returns the same
decorator-capable function, usable for further registration. -/
theorem C7_decorator_and_direct_forms {α ε σ : Type} (t : Target) (reg : Registry α ε σ)
    (rec : EventRecord α ε σ) (hrec : reg.lookup t.tid = some rec)
    (f g : Fn α ε σ) (c : Fn α ε PyVal) :
    run_before_decorator t f reg
        = Except.ok (f, reg.update t.tid (fun r => ⟨r.before ++ [f], r.after, r.conditions⟩)) ∧
    run_after_decorator t g reg
        = Except.ok (g, reg.update t.tid (fun r => ⟨r.before, r.after ++ [g], r.conditions⟩)) ∧
    condition_for_decorator t c reg
        = Except.ok (c, reg.update t.tid (fun r => ⟨r.before, r.after, r.conditions ++ [c]⟩)) ∧
    run_before t (some f) reg
        = Except.ok (run_before_decorator t,
            reg.update t.tid (fun r => ⟨r.before ++ [f], r.after, r.conditions⟩)) ∧
    run_after t (some g) reg
        = Except.ok (run_after_decorator t,
            reg.update t.tid (fun r => ⟨r.before, r.after ++ [g], r.conditions⟩)) ∧
    condition_for t (some c) reg
        = Except.ok (condition_for_decorator t,
            reg.update t.tid (fun r => ⟨r.before, r.after, r.conditions ++ [c]⟩)) := by
  refine ⟨?_, ?_, ?_, ?_, ?_, ?_⟩ <;>
    simp [run_before, run_after, condition_for, run_before_decorator,
      run_after_decorator, condition_for_decorator, hrec]

/-- Witness for C7: on handle `0` of `regA`, the decorator forms return the
registered function and append it; the direct forms register at once and
return the decorator. -/
theorem C7_decorator_and_direct_forms_witness :
    run_before_decorator ⟨0, "foo"⟩ sA regA
        = Except.ok (sA, Registry.mk 2 [(0, EventRecord.mk [sA] [] []), (1, EventRecord.empty)]) ∧
    run_after_decorator ⟨0, "foo"⟩ sB regA
        = Except.ok (sB, Registry.mk 2 [(0, EventRecord.mk [] [sB] []), (1, EventRecord.empty)]) ∧
    condition_for_decorator ⟨0, "foo"⟩ cTrue regA
        = Except.ok (cTrue, Registry.mk 2 [(0, EventRecord.mk [] [] [cTrue]), (1, EventRecord.empty)]) ∧
    run_before ⟨0, "foo"⟩ (some sA) regA
        = Except.ok (run_before_decorator ⟨0, "foo"⟩,
            Registry.mk 2 [(0, EventRecord.mk [sA] [] []), (1, EventRecord.empty)]) ∧
    run_after ⟨0, "foo"⟩ (some sB) regA
        = Except.ok (run_after_decorator ⟨0, "foo"⟩,
            Registry.mk 2 [(0, EventRecord.mk [] [sB] []), (1, EventRecord.empty)]) ∧
    condition_for ⟨0, "foo"⟩ (some cTrue) regA
        = Except.ok (condition_for_decorator ⟨0, "foo"⟩,
            Registry.mk 2 [(0, EventRecord.mk [] [] [cTrue]), (1, EventRecord.empty)]) :=
  C7_decorator_and_direct_forms ⟨0, "foo"⟩ regA EventRecord.empty rfl sA sB cTrue

/-- C10: calling any of the three registration operations with only an event
handle (the partial-application form, `fn` absent) never raises — it returns
the decorator unchanged along with the untouched registry, even when the
handle was never promoted; `EventNotRegistered` is raised only later, when
the returned decorator is applied to a function. -/
theorem C10_handle_only_never_raises {α ε σ : Type} (ev : Target)
    (reg : Registry α ε σ) (f g : Fn α ε σ) (c : Fn α ε PyVal) :
    run_before ev none reg = Except.ok (run_before_decorator ev, reg) ∧
    run_after ev none reg = Except.ok (run_after_decorator ev, reg) ∧
    condition_for ev none reg = Except.ok (condition_for_decorator ev, reg) ∧
    (reg.lookup ev.tid = none →
      run_before_decorator ev f reg
        = Except.error (RegErr.eventNotRegistered (notRegisteredMsg ev.name))) ∧
    (reg.lookup ev.tid = none →
      run_after_decorator ev g reg
        = Except.error (RegErr.eventNotRegistered (notRegisteredMsg ev.name))) ∧
    (reg.lookup ev.tid = none →
      condition_for_decorator ev c reg
        = Except.error (RegErr.eventNotRegistered (notRegisteredMsg ev.name))) := by
  refine ⟨rfl, rfl, rfl, ?_, ?_, ?_⟩ <;> intro h <;>
    simp [run_before_decorator, run_after_decorator, condition_for_decorator, h]

/-- Witness for C10: the never-promoted callable `bar` (identity `5`) —
each partial-application call succeeds on the empty registry, and each
decorator raises only when later applied to a function. -/
theorem C10_handle_only_never_raises_witness :
    run_before (⟨5, "bar"⟩ : Target) none reg0 = Except.ok (run_before_decorator ⟨5, "bar"⟩, reg0) ∧
    run_after (⟨5, "bar"⟩ : Target) none reg0 = Except.ok (run_after_decorator ⟨5, "bar"⟩, reg0) ∧
    condition_for (⟨5, "bar"⟩ : Target) none reg0
        = Except.ok (condition_for_decorator ⟨5, "bar"⟩, reg0) ∧
    run_before_decorator ⟨5, "bar"⟩ sA reg0
        = Except.error (RegErr.eventNotRegistered (notRegisteredMsg "bar")) ∧
    run_after_decorator ⟨5, "bar"⟩ sB reg0
        = Except.error (RegErr.eventNotRegistered (notRegisteredMsg "bar")) ∧
    condition_for_decorator ⟨5, "bar"⟩ cTrue reg0
        = Except.error (RegErr.eventNotRegistered (notRegisteredMsg "bar")) := by
  have h := C10_handle_only_never_raises ⟨5, "bar"⟩ reg0 sA sB cTrue
  exact ⟨h.1, h.2.1, h.2.2.1, h.2.2.2.1 rfl, h.2.2.2.2.1 rfl, h.2.2.2.2.2 rfl⟩

/-- C8: for two distinct promoted events, registering a before-hook,
after-hook or condition on the first appends it to exactly the corresponding
list of the first event's record (the other two lists coming along
unchanged) and leaves the second event's record entirely unchanged. -/
theorem C8_registration_frame {α ε σ : Type} (h₁ h₂ : Nat) (hne : h₁ ≠ h₂)
    (reg : Registry α ε σ) (rec₁ rec₂ : EventRecord α ε σ)
    (hl1 : reg.lookup h₁ = some rec₁) (hl2 : reg.lookup h₂ = some rec₂)
    (n : String) (f g : Fn α ε σ) (c : Fn α ε PyVal)
    (regB regA2 regC : Registry α ε σ) :
    (run_before_decorator ⟨h₁, n⟩ f reg = Except.ok (f, regB) →
      regB.lookup h₁ = some ⟨rec₁.before ++ [f], rec₁.after, rec₁.conditions⟩ ∧
      regB.lookup h₂ = some rec₂) ∧
    (run_after_decorator ⟨h₁, n⟩ g reg = Except.ok (g, regA2) →
      regA2.lookup h₁ = some ⟨rec₁.before, rec₁.after ++ [g], rec₁.conditions⟩ ∧
      regA2.lookup h₂ = some rec₂) ∧
    (condition_for_decorator ⟨h₁, n⟩ c reg = Except.ok (c, regC) →
      regC.lookup h₁ = some ⟨rec₁.before, rec₁.after, rec₁.conditions ++ [c]⟩ ∧
      regC.lookup h₂ = some rec₂) := by
  refine ⟨?_, ?_, ?_⟩ <;> intro hreg
  · simp only [run_before_decorator, hl1] at hreg
    rw [Except.ok.injEq, Prod.mk.injEq] at hreg
    rw [← hreg.2]
    rw [lookup_update_self, lookup_update_ne reg _ (Ne.symm hne), hl1, hl2]
    exact ⟨rfl, rfl⟩
  · simp only [run_after_decorator, hl1] at hreg
    rw [Except.ok.injEq, Prod.mk.injEq] at hreg
    rw [← hreg.2]
    rw [lookup_update_self, lookup_update_ne reg _ (Ne.symm hne), hl1, hl2]
    exact ⟨rfl, rfl⟩
  · simp only [condition_for_decorator, hl1] at hreg
    rw [Except.ok.injEq, Prod.mk.injEq] at hreg
    rw [← hreg.2]
    rw [lookup_update_self, lookup_update_ne reg _ (Ne.symm hne), hl1, hl2]
    exact ⟨rfl, rfl⟩

/-- Witness for C8: in `regA` (promoted handles `0` and `1`, empty records),
registering `sA` / `sB` / `cTrue` on handle `0` updates only the matching
list of record `0` and leaves record `1` empty. -/
theorem C8_registration_frame_witness :
    ((Registry.mk 2 [(0, EventRecord.mk [sA] [] []), (1, EventRecord.empty)] : Registry Nat String PyVal).lookup 0
          = some (EventRecord.mk [sA] [] []) ∧
      (Registry.mk 2 [(0, EventRecord.mk [sA] [] []), (1, EventRecord.empty)] : Registry Nat String PyVal).lookup 1
          = some EventRecord.empty) ∧
    ((Registry.mk 2 [(0, EventRecord.mk [] [sB] []), (1, EventRecord.empty)] : Registry Nat String PyVal).lookup 0
          = some (EventRecord.mk [] [sB] []) ∧
      (Registry.mk 2 [(0, EventRecord.mk [] [sB] []), (1, EventRecord.empty)] : Registry Nat String PyVal).lookup 1
          = some EventRecord.empty) ∧
    ((Registry.mk 2 [(0, EventRecord.mk [] [] [cTrue]), (1, EventRecord.empty)] : Registry Nat String PyVal).lookup 0
          = some (EventRecord.mk [] [] [cTrue]) ∧
      (Registry.mk 2 [(0, EventRecord.mk [] [] [cTrue]), (1, EventRecord.empty)] : Registry Nat String PyVal).lookup 1
          = some EventRecord.empty) := by
  have h := C8_registration_frame 0 1 (by omega) regA EventRecord.empty EventRecord.empty
    rfl rfl "foo" sA sB cTrue
    (Registry.mk 2 [(0, EventRecord.mk [sA] [] []), (1, EventRecord.empty)])
    (Registry.mk 2 [(0, EventRecord.mk [] [sB] []), (1, EventRecord.empty)])
    (Registry.mk 2 [(0, EventRecord.mk [] [] [cTrue]), (1, EventRecord.empty)])
  exact ⟨h.1 rfl, h.2.1 rfl, h.2.2 rfl⟩

/-- Appending the same normally-returning subscriber twice to a list of
normally-returning subscribers keeps every call returning normally. -/
lemma oks_append_two {α ε σ : Type} {l : List (Fn α ε σ)} {f : Fn α ε σ} {args : α}
    (hl : oks l args) (hf : ∃ v, f.run args = Except.ok v) :
    oks (l ++ [f, f]) args := by
  intro s hs
  rcases List.mem_append.mp hs with hs | hs
  · exact hl s hs
  · rcases List.mem_cons.mp hs with hs | hs
    · subst hs; exact hf
    · rcases List.mem_cons.mp hs with hs | hs
      · subst hs; exact hf
      · simp at hs

/-- C5: hook lists grow only by appending at the end, never reordered or
deduplicated: registering the same subscriber twice on the same hook list —
before-list or after-list — of a promoted event appends two entries after
the existing ones, and every subsequent dispatch in which all calls return
normally invokes that subscriber twice, at exactly the two trailing
positions of the corresponding segment of the trace, in registration
order. -/
theorem C5_duplicate_registration {α ε σ ρ : Type} (t : Target) (reg : Registry α ε σ)
    (rec : EventRecord α ε σ) (hrec : reg.lookup t.tid = some rec) (f : Fn α ε σ)
    (regB1 regB2 regA1 regA2 : Registry α ε σ)
    (hB1 : run_before_decorator t f reg = Except.ok (f, regB1))
    (hB2 : run_before_decorator t f regB1 = Except.ok (f, regB2))
    (hA1 : run_after_decorator t f reg = Except.ok (f, regA1))
    (hA2 : run_after_decorator t f regA1 = Except.ok (f, regA2))
    (w : EventWrapper α ε ρ) (args : α) (r : ρ) :
    regB2.lookup t.tid = some ⟨rec.before ++ [f, f], rec.after, rec.conditions⟩ ∧
    (w.handle = t.tid →
      passes rec.conditions args →
      oks rec.before args →
      (∃ v, f.run args = Except.ok v) →
      w.body.run args = Except.ok r →
      oks rec.after args →
      invoke regB2 w args
        = some (traceOf args rec.conditions ++
            (traceOf args rec.before ++ [(f.fid, args), (f.fid, args)]) ++
            [(w.body.fid, args)] ++ traceOf args rec.after, Except.ok (some r))) ∧
    regA2.lookup t.tid = some ⟨rec.before, rec.after ++ [f, f], rec.conditions⟩ ∧
    (w.handle = t.tid →
      passes rec.conditions args →
      oks rec.before args →
      w.body.run args = Except.ok r →
      oks rec.after args →
      (∃ v, f.run args = Except.ok v) →
      invoke regA2 w args
        = some (traceOf args rec.conditions ++ traceOf args rec.before ++
            [(w.body.fid, args)] ++
            (traceOf args rec.after ++ [(f.fid, args), (f.fid, args)]),
            Except.ok (some r))) := by
  simp only [run_before_decorator, hrec] at hB1
  rw [Except.ok.injEq, Prod.mk.injEq] at hB1
  have hregB1 : regB1.lookup t.tid = some ⟨rec.before ++ [f], rec.after, rec.conditions⟩ := by
    rw [← hB1.2, lookup_update_self, hrec]; rfl
  simp only [run_before_decorator, hregB1] at hB2
  rw [Except.ok.injEq, Prod.mk.injEq] at hB2
  have hregB2 : regB2.lookup t.tid = some ⟨rec.before ++ [f, f], rec.after, rec.conditions⟩ := by
    rw [← hB2.2, lookup_update_self, hregB1]
    simp
  simp only [run_after_decorator, hrec] at hA1
  rw [Except.ok.injEq, Prod.mk.injEq] at hA1
  have hregA1 : regA1.lookup t.tid = some ⟨rec.before, rec.after ++ [f], rec.conditions⟩ := by
    rw [← hA1.2, lookup_update_self, hrec]; rfl
  simp only [run_after_decorator, hregA1] at hA2
  rw [Except.ok.injEq, Prod.mk.injEq] at hA2
  have hregA2 : regA2.lookup t.tid = some ⟨rec.before, rec.after ++ [f, f], rec.conditions⟩ := by
    rw [← hA2.2, lookup_update_self, hregA1]
    simp
  refine ⟨hregB2, ?_, hregA2, ?_⟩
  · intro hw hc hb hf hbody ha
    have hd := @calls_subs_success α ε σ ρ ⟨rec.before ++ [f, f], rec.after, rec.conditions⟩
      w.body args r hc (oks_append_two hb hf) hbody ha
    simp only [invoke]
    rw [hw, hregB2]
    simp [hd, traceOf]
  · intro hw hc hb hbody ha hf
    have hd := @calls_subs_success α ε σ ρ ⟨rec.before, rec.after ++ [f, f], rec.conditions⟩
      w.body args r hc hb hbody (oks_append_two ha hf)
    simp only [invoke]
    rw [hw, hregA2]
    simp [hd, traceOf]

/-- Witness for C5: registering `sA` twice on the before-list of handle `0`
of `regA` yields the before-list `[sA, sA]` and a dispatch with body `bOk`
on argument `3` calls `sA` twice, in the two registered positions, before
the body; registering it twice on the after-list instead yields the
after-list `[sA, sA]` and a dispatch calls it twice after the body. -/
theorem C5_duplicate_registration_witness :
    (Registry.mk 2 [(0, EventRecord.mk [sA, sA] [] []), (1, EventRecord.empty)] : Registry Nat String PyVal).lookup 0
        = some (EventRecord.mk [sA, sA] [] []) ∧
    invoke (Registry.mk 2 [(0, EventRecord.mk [sA, sA] [] []), (1, EventRecord.empty)])
        (EventWrapper.mk 0 "bok" bOk) 3
      = some ([(10, 3), (10, 3), (6, 3)], Except.ok (some 4)) ∧
    (Registry.mk 2 [(0, EventRecord.mk [] [sA, sA] []), (1, EventRecord.empty)] : Registry Nat String PyVal).lookup 0
        = some (EventRecord.mk [] [sA, sA] []) ∧
    invoke (Registry.mk 2 [(0, EventRecord.mk [] [sA, sA] []), (1, EventRecord.empty)])
        (EventWrapper.mk 0 "bok" bOk) 3
      = some ([(6, 3), (10, 3), (10, 3)], Except.ok (some 4)) := by
  have h := C5_duplicate_registration ⟨0, "foo"⟩ regA EventRecord.empty rfl sA
    (Registry.mk 2 [(0, EventRecord.mk [sA] [] []), (1, EventRecord.empty)])
    (Registry.mk 2 [(0, EventRecord.mk [sA, sA] [] []), (1, EventRecord.empty)])
    (Registry.mk 2 [(0, EventRecord.mk [] [sA] []), (1, EventRecord.empty)])
    (Registry.mk 2 [(0, EventRecord.mk [] [sA, sA] []), (1, EventRecord.empty)])
    rfl rfl rfl rfl (EventWrapper.mk 0 "bok" bOk) 3 4
  refine ⟨h.1, ?_, h.2.2.1, ?_⟩
  · exact h.2.1 rfl (fun c hc => absurd hc (List.not_mem_nil c))
      (fun s hs => absurd hs (List.not_mem_nil s)) ⟨PyVal.vnone, rfl⟩ rfl
      (fun s hs => absurd hs (List.not_mem_nil s))
  · exact h.2.2.2 rfl (fun c hc => absurd hc (List.not_mem_nil c))
      (fun s hs => absurd hs (List.not_mem_nil s)) rfl
      (fun s hs => absurd hs (List.not_mem_nil s)) ⟨PyVal.vnone, rfl⟩

/-- C6: during dispatch, an exception raised by a condition, a before-hook,
the body, or an after-hook propagates unmodified to the caller: a raising
condition stops dispatch with nothing after it in the trace; a failing
before-hook prevents the body and all after-hooks from running; a failing
body prevents the after-hooks; a failing after-hook aborts the remaining
after-hooks and the call yields the error, discarding the already-computed
body result `r` so the caller cannot recover it. -/
theorem C6_error_propagation {α ε σ ρ : Type} (rec : EventRecord α ε σ) (f : Fn α ε ρ)
    (args : α)
    (cl₁ cl₂ : List (Fn α ε PyVal)) (cc : Fn α ε PyVal) (e₁ : ε)
    (bl₁ bl₂ : List (Fn α ε σ)) (bs : Fn α ε σ) (e₂ e₃ : ε)
    (al₁ al₂ : List (Fn α ε σ)) (af : Fn α ε σ) (e₄ : ε) (r : ρ) :
    (rec.conditions = cl₁ ++ cc :: cl₂ → passes cl₁ args →
      cc.run args = Except.error e₁ →
      calls_subs rec f args = (traceOf args (cl₁ ++ [cc]), Except.error e₁)) ∧
    (rec.before = bl₁ ++ bs :: bl₂ → passes rec.conditions args → oks bl₁ args →
      bs.run args = Except.error e₂ →
      calls_subs rec f args
        = (traceOf args rec.conditions ++ traceOf args (bl₁ ++ [bs]), Except.error e₂)) ∧
    (passes rec.conditions args → oks rec.before args → f.run args = Except.error e₃ →
      calls_subs rec f args
        = (traceOf args rec.conditions ++ traceOf args rec.before ++ [(f.fid, args)],
            Except.error e₃)) ∧
    (rec.after = al₁ ++ af :: al₂ → passes rec.conditions args → oks rec.before args →
      f.run args = Except.ok r → oks al₁ args → af.run args = Except.error e₄ →
      calls_subs rec f args
        = (traceOf args rec.conditions ++ traceOf args rec.before ++ [(f.fid, args)] ++
            traceOf args (al₁ ++ [af]), Except.error e₄)) := by
  refine ⟨?_, ?_, ?_, ?_⟩
  · intro hs hp hc
    have hrun := runConds_raise_split hs hp hc
    simp [calls_subs, hrun]
  · intro hs hp hok hb
    have hrun := runSubs_raise_split hs hok hb
    simp [calls_subs, runConds_pass hp, hrun]
  · intro hp hok hf
    simp [calls_subs, runConds_pass hp, runSubs_ok hok, hf]
  · intro hs hp hok hf hok2 ha
    have hrun := runSubs_raise_split hs hok2 ha
    simp [calls_subs, runConds_pass hp, runSubs_ok hok, hf, hrun]

/-- Witness for C6, one concrete dispatch per failure point: a raising
second condition; a raising second before-hook (the body `bOk` and
after-hook never appear in the trace); a raising body (no after-hook runs);
a raising second after-hook (the body ran and returned `1`, yet the caller
receives the error, not `1`, and the third after-hook never runs). -/
theorem C6_error_propagation_witness :
    calls_subs (EventRecord.mk [sA] [sA] [cTrue, cBoom] : EventRecord Nat String PyVal) bOk 0
        = ([(1, 0), (3, 0)], Except.error "boom-cond") ∧
    calls_subs (EventRecord.mk [sA, sBoom, sB] [sA] [cTrue] : EventRecord Nat String PyVal) bOk 0
        = ([(1, 0), (10, 0), (12, 0)], Except.error "boom-sub") ∧
    calls_subs (EventRecord.mk [sA] [sA] [] : EventRecord Nat String PyVal) bBoom 0
        = ([(10, 0), (7, 0)], Except.error "boom-body") ∧
    calls_subs (EventRecord.mk [] [sA, sBoom, sB] [] : EventRecord Nat String PyVal) bOk 0
        = ([(6, 0), (10, 0), (12, 0)], Except.error "boom-sub") := by
  have hpt : passes [cTrue] (0 : Nat) := by
    intro x hx
    rcases List.mem_cons.mp hx with h | hx
    · subst h; exact ⟨PyVal.vbool true, rfl, rfl⟩
    · simp at hx
  have hoA : oks [sA] (0 : Nat) := by
    intro s hs
    rcases List.mem_cons.mp hs with h | hs
    · subst h; exact ⟨PyVal.vnone, rfl⟩
    · simp at hs
  have hpe : passes ([] : List (Fn Nat String PyVal)) 0 :=
    fun c hc => absurd hc (List.not_mem_nil c)
  have hoe : oks ([] : List (Fn Nat String PyVal)) 0 :=
    fun s hs => absurd hs (List.not_mem_nil s)
  refine ⟨?_, ?_, ?_, ?_⟩
  · exact (C6_error_propagation (EventRecord.mk [sA] [sA] [cTrue, cBoom]) bOk 0
      [cTrue] [] cBoom "boom-cond" [] [] sA "" "" [] [] sA "" 0).1 rfl hpt rfl
  · exact (C6_error_propagation (EventRecord.mk [sA, sBoom, sB] [sA] [cTrue]) bOk 0
      [] [] cTrue "" [sA] [sB] sBoom "boom-sub" "" [] [] sA "" 0).2.1 rfl hpt hoA rfl
  · exact (C6_error_propagation (EventRecord.mk [sA] [sA] []) bBoom 0
      [] [] cTrue "" [] [] sA "" "boom-body" [] [] sA "" 0).2.2.1 hpe hoA rfl
  · exact (C6_error_propagation (EventRecord.mk [] [sA, sBoom, sB] []) bOk 0
      [] [] cTrue "" [] [] sA "" "" [sA] [sB] sBoom "boom-sub" 1).2.2.2 rfl hpe hoe rfl hoA rfl

/-- C9: `voidargs` wraps a zero-argument callable into one that, on any
argument list, discards the arguments (its behaviour does not depend on
them), invokes the wrapped callable with no arguments, and returns nothing
(`None`, its return value discarded); consequently a `voidargs`-adapted
callable registered as a condition vetoes every dispatch that reaches it —
its `None` return value being falsy — so the call yields no result. -/
theorem C9_voidargs_adapter {α ε σ τ ρ : Type} (vid : Nat) (f0 : Fn Unit ε σ)
    (args a2 : α) (v0 : σ) (rec : EventRecord α ε τ) (body : Fn α ε ρ)
    (l₁ l₂ : List (Fn α ε PyVal)) :
    (f0.run () = Except.ok v0 → (voidargs α vid f0).run args = Except.ok PyVal.vnone) ∧
    ((voidargs α vid f0).run args = (voidargs α vid f0).run a2) ∧
    (rec.conditions = l₁ ++ voidargs α vid f0 :: l₂ →
      passes l₁ args →
      f0.run () = Except.ok v0 →
      calls_subs rec body args
        = (traceOf args (l₁ ++ [voidargs α vid f0]), Except.ok none)) := by
  refine ⟨?_, rfl, ?_⟩
  · intro hv
    simp [voidargs, hv]
  · intro hsplit hp hv
    have hcv : (voidargs α vid f0).run args = Except.ok PyVal.vnone := by
      simp [voidargs, hv]
    have hrun := runConds_veto_split hsplit hp hcv rfl
    simp [calls_subs, hrun]

/-- Witness for C9: `voidargs` applied to the zero-argument `zOk` returns
`None` on argument `5`, behaves identically on arguments `5` and `99`, and
as the second condition of an event it vetoes the dispatch: the body `bOk`
and hooks never run and the call yields no value. -/
theorem C9_voidargs_adapter_witness :
    (voidargs Nat 20 zOk).run 5 = Except.ok PyVal.vnone ∧
    (voidargs Nat 20 zOk).run 5 = (voidargs Nat 20 zOk).run 99 ∧
    calls_subs (EventRecord.mk [sA] [sA] [cTrue, voidargs Nat 20 zOk] : EventRecord Nat String PyVal)
        bOk 5 = ([(1, 5), (20, 5)], Except.ok none) := by
  have h := C9_voidargs_adapter 20 zOk 5 99 9
    (EventRecord.mk [sA] [sA] [cTrue, voidargs Nat 20 zOk]) bOk [cTrue] []
  refine ⟨h.1 rfl, h.2.1, ?_⟩
  refine h.2.2 rfl ?_ rfl
  intro x hx
  rcases List.mem_cons.mp hx with hh | hx
  · subst hh; exact ⟨PyVal.vbool true, rfl, rfl⟩
  · simp at hx

end Eventer
